import Mathlib

/-!
# Event-sourced inventory ledger and replenishment-signal engine

A shallow embedding of the core of the `linesync` inventory demo:
the append-only scan-event ledger, the append-only replenishment-signal
store with "latest row per logical signal" reads, the debounce admission
filter, and the service layer that ties them together
(`db/postgres.py`, `core/inventory_service.py`, `api/barcode_parser.py`,
`api/main.py`).

Machine integers are modelled as `Int`/`Nat` (quantities fit comfortably;
the source uses Python/Postgres arbitrary-precision ints and INT columns).
Timestamps: the database clock (`NOW()` / `event_ts` / `created_ts`) is
modelled as a `Nat` tick that strictly increases with every insert, which
reflects the server-assigned insertion timestamps; the application wall
clock used by the debounce filter (`datetime.now()`) is a separate `Int`
passed explicitly to each service call, in seconds.
-/

namespace LineSync

/-- `event_type ∈ {INTAKE, CONSUME}` (core/models.py `EventType`). -/
inductive EventType where
  | INTAKE
  | CONSUME
deriving DecidableEq, Repr

/-- `status ∈ {OPEN, ACKNOWLEDGED, FULFILLED}` (core/models.py `SignalStatus`). -/
inductive SignalStatus where
  | OPEN
  | ACKNOWLEDGED
  | FULFILLED
deriving DecidableEq, Repr

/-- A row of the `scan_events` table (db/schemas.py / cli.py DDL).
`qty` is a `Nat` here; the DDL enforces `qty > 0` and the write path only
inserts parsed quantities, which are positive. -/
structure ScanEvent where
  event_id : Nat
  event_ts : Nat
  event_type : EventType
  station_id : String
  barcode_raw : String
  item_id : String
  qty : Nat
  user_email : Option String
deriving DecidableEq, Repr

/-- A physical row of the append-only `replenishment_signals` table
(cli.py DDL): `row_id` is the SERIAL surrogate `id`, `signal_id` the
stable logical identifier (a UUID in the source, a `Nat` here). -/
structure SignalRow where
  row_id : Nat
  signal_id : Nat
  created_ts : Nat
  item_id : String
  triggered_at_qty : Int
  reorder_point : Int
  reorder_qty : Int
  trigger_event_id : Nat
  status : SignalStatus
deriving DecidableEq, Repr

/-- The persistent store: both append-only tables plus the id/clock
generators (`gen_random_uuid()`, SERIAL, `NOW()`). The single `clock`
models server-assigned timestamps, strictly increasing per insert. -/
structure DBState where
  events : List ScanEvent
  signals : List SignalRow
  nextEventId : Nat
  nextRowId : Nat
  nextSignalId : Nat
  clock : Nat
deriving Repr

/-- The empty database, as produced by `cli.py db init`. -/
def DBState.empty : DBState :=
  { events := [], signals := [], nextEventId := 0, nextRowId := 0,
    nextSignalId := 0, clock := 0 }

/-- The derived inventory record returned by `get_inventory_item`. -/
structure Inventory where
  item_id : String
  intake_total : Int
  consume_total : Int
  on_hand_qty : Int
  last_activity_ts : Nat
deriving DecidableEq, Repr

/-- `PostgresDB.create_event`: append one row to `scan_events` with a
server-assigned id and timestamp. -/
def create_event (db : DBState) (ty : EventType) (station barcode item : String)
    (qty : Nat) (user : Option String) : ScanEvent × DBState :=
  let ev : ScanEvent :=
    { event_id := db.nextEventId, event_ts := db.clock, event_type := ty,
      station_id := station, barcode_raw := barcode, item_id := item,
      qty := qty, user_email := user }
  (ev, { db with events := db.events ++ [ev],
                 nextEventId := db.nextEventId + 1, clock := db.clock + 1 })

/-- The `SUM(CASE WHEN event_type = .. THEN qty ELSE 0 END)` aggregate of
`get_inventory_item`, over an already item-filtered row list. -/
def sumQtyOfType (evs : List ScanEvent) (ty : EventType) : Int :=
  evs.foldl (fun acc e => if e.event_type = ty then acc + (e.qty : Int) else acc) 0

/-- `PostgresDB.get_inventory_item`: aggregate the events of one item;
`None` when the item has no events (the SQL `GROUP BY` yields no row). -/
def get_inventory_item (db : DBState) (item : String) : Option Inventory :=
  let evs := db.events.filter (fun e => e.item_id = item)
  if evs.isEmpty then none
  else
    let intake := sumQtyOfType evs .INTAKE
    let consume := sumQtyOfType evs .CONSUME
    some { item_id := item, intake_total := intake, consume_total := consume,
           on_hand_qty := intake - consume,
           last_activity_ts := evs.foldl (fun acc e => max acc e.event_ts) 0 }

/-- `PostgresDB.get_on_hand_qty`: 0 for an unseen item. -/
def get_on_hand_qty (db : DBState) (item : String) : Int :=
  match get_inventory_item db item with
  | none => 0
  | some inv => inv.on_hand_qty

/-- The live on-hand aggregate computed inline by `get_signals` /
`update_signal_status` (`COALESCE(SUM ...) - COALESCE(SUM ...)`, which is
0 when the item has no events). -/
def liveOnHand (events : List ScanEvent) (item : String) : Int :=
  let evs := events.filter (fun e => e.item_id = item)
  sumQtyOfType evs .INTAKE - sumQtyOfType evs .CONSUME

/-- Whether row `a` orders after row `b` in the
`ORDER BY created_ts DESC` ranking used by every "latest row per
signal_id" window query. The SQL leaves equal timestamps unordered; our
clock assigns each insert a fresh timestamp, and ties are broken by the
SERIAL `row_id` as in the spec's current-state rule. -/
def rowLater (a b : SignalRow) : Bool :=
  b.created_ts < a.created_ts ∨ (a.created_ts = b.created_ts ∧ b.row_id < a.row_id)

/-- Keep the later of the accumulated row and the next row (the
reduction computing the `rn = 1` row of a partition). -/
def pickLater (acc : Option SignalRow) (r : SignalRow) : Option SignalRow :=
  match acc with
  | none => some r
  | some m => if rowLater r m then some r else some m

/-- The `ROW_NUMBER() OVER (PARTITION BY signal_id ORDER BY created_ts DESC)
... WHERE rn = 1` pattern: the latest physical row for one `signal_id`
among `rows`, `none` when the signal has no row there. -/
def latestRowFor (rows : List SignalRow) (sid : Nat) : Option SignalRow :=
  (rows.filter (fun r => r.signal_id = sid)).foldl pickLater none

/-- The distinct `signal_id`s occurring in a row list (the partitions of
the window query). -/
def signalIds (rows : List SignalRow) : List Nat :=
  (rows.map (fun r => r.signal_id)).dedup

/-- All `rn = 1` rows of a window query over `rows`: one current row per
logical signal present. -/
def currentRows (rows : List SignalRow) : List SignalRow :=
  (signalIds rows).filterMap (latestRowFor rows)

/-- `PostgresDB.has_open_signal`: does the item have a signal whose
current (latest) row has status OPEN?  The source filters by `item_id`
first and partitions the filtered rows by `signal_id`. -/
def has_open_signal (db : DBState) (item : String) : Bool :=
  (currentRows (db.signals.filter (fun r => r.item_id = item))).any
    (fun r => r.status = .OPEN)

/-- The `INSERT INTO replenishment_signals ... VALUES (..., 'OPEN')`
transaction of `create_signal`: append one OPEN row with a fresh
`signal_id`. -/
def insertOpenRow (db : DBState) (item : String) (current_qty : Int)
    (trigger_event_id : Nat) (reorder_point reorder_qty : Int) :
    SignalRow × DBState :=
  let row : SignalRow :=
    { row_id := db.nextRowId, signal_id := db.nextSignalId,
      created_ts := db.clock, item_id := item,
      triggered_at_qty := current_qty, reorder_point := reorder_point,
      reorder_qty := reorder_qty, trigger_event_id := trigger_event_id,
      status := .OPEN }
  (row,
   { db with signals := db.signals ++ [row],
             nextRowId := db.nextRowId + 1,
             nextSignalId := db.nextSignalId + 1,
             clock := db.clock + 1 })

/-- `PostgresDB.create_signal`: check-then-insert. If a current-OPEN
signal exists for the item, return `none` and change nothing; otherwise
append one OPEN row with a fresh `signal_id`. The check and the insert
run in two separate transactions in the source. -/
def create_signal (db : DBState) (item : String) (current_qty : Int)
    (trigger_event_id : Nat) (reorder_point : Int := 10) (reorder_qty : Int := 24) :
    Option SignalRow × DBState :=
  if has_open_signal db item then
    (none, db)
  else
    let (row, db') := insertOpenRow db item current_qty trigger_event_id
      reorder_point reorder_qty
    (some row, db')

/-- The enriched record returned by `get_signals` / `update_signal_status`:
signal fields plus the live `current_qty` joined from the event ledger. -/
structure SignalView where
  signal_id : Nat
  created_ts : Nat
  item_id : String
  current_qty : Int
  triggered_at_qty : Int
  reorder_point : Int
  reorder_qty : Int
  status : SignalStatus
deriving DecidableEq, Repr

/-- Insertion into a list kept sorted by `created_ts` descending
(`ORDER BY s.created_ts DESC`). -/
def insertByTsDesc (r : SignalRow) : List SignalRow → List SignalRow
  | [] => [r]
  | x :: xs => if x.created_ts ≤ r.created_ts then r :: x :: xs
               else x :: insertByTsDesc r xs

/-- `ORDER BY created_ts DESC` over a row list. -/
def sortByTsDesc (rows : List SignalRow) : List SignalRow :=
  rows.foldr insertByTsDesc []

/-- `PostgresDB.get_signals`: latest row per `signal_id` over the whole
table, optional status filter applied to that latest row, newest first,
`LIMIT limit`, each row joined with the live on-hand quantity
(`COALESCE(i.on_hand_qty, 0)`); `viewOf` is the SELECT row shape of
that join. -/
def viewOf (events : List ScanEvent) (r : SignalRow) : SignalView :=
  { signal_id := r.signal_id, created_ts := r.created_ts,
    item_id := r.item_id,
    current_qty := liveOnHand events r.item_id,
    triggered_at_qty := r.triggered_at_qty,
    reorder_point := r.reorder_point, reorder_qty := r.reorder_qty,
    status := r.status }

def get_signals (db : DBState) (status : Option SignalStatus) (limit : Nat := 50) :
    List SignalView :=
  let latest := currentRows db.signals
  let filtered :=
    match status with
    | none => latest
    | some st => latest.filter (fun r => r.status = st)
  ((sortByTsDesc filtered).take limit).map (viewOf db.events)

/-- `PostgresDB.update_signal_status`: read the latest row of the given
`signal_id` (any status); if none exists return `none` and change
nothing; otherwise append one row with the new status, copying every
other field forward, and return it joined with the live on-hand
quantity. -/
def update_signal_status (db : DBState) (sid : Nat) (newStatus : SignalStatus) :
    Option SignalView × DBState :=
  match latestRowFor db.signals sid with
  | none => (none, db)
  | some ex =>
    let row : SignalRow :=
      { row_id := db.nextRowId, signal_id := ex.signal_id,
        created_ts := db.clock, item_id := ex.item_id,
        triggered_at_qty := ex.triggered_at_qty,
        reorder_point := ex.reorder_point, reorder_qty := ex.reorder_qty,
        trigger_event_id := ex.trigger_event_id, status := newStatus }
    let db' := { db with signals := db.signals ++ [row],
                         nextRowId := db.nextRowId + 1, clock := db.clock + 1 }
    (some { signal_id := row.signal_id, created_ts := row.created_ts,
            item_id := row.item_id,
            current_qty := liveOnHand db'.events row.item_id,
            triggered_at_qty := row.triggered_at_qty,
            reorder_point := row.reorder_point, reorder_qty := row.reorder_qty,
            status := row.status },
     db')

/-- One step of the insert loop of `fulfill_open_signals`: append a
FULFILLED row for the previously-current row `sig`, carrying its fields
forward with `trigger_event_id := fulfillEventId`. -/
def fulfillOne (fulfillEventId : Nat) (acc : List SignalRow × DBState)
    (sig : SignalRow) : List SignalRow × DBState :=
  let db := acc.2
  let row : SignalRow :=
    { row_id := db.nextRowId, signal_id := sig.signal_id,
      created_ts := db.clock, item_id := sig.item_id,
      triggered_at_qty := sig.triggered_at_qty,
      reorder_point := sig.reorder_point, reorder_qty := sig.reorder_qty,
      trigger_event_id := fulfillEventId, status := .FULFILLED }
  (acc.1 ++ [row],
   { db with signals := db.signals ++ [row],
             nextRowId := db.nextRowId + 1, clock := db.clock + 1 })

/-- The `WHERE rn = 1 AND status = 'OPEN'` selection of
`fulfill_open_signals`: the current rows of the item's signals whose
status is OPEN. -/
def openCurrentRows (db : DBState) (item : String) : List SignalRow :=
  (currentRows (db.signals.filter (fun r => r.item_id = item))).filter
    (fun r => r.status = .OPEN)

/-- `PostgresDB.fulfill_open_signals`: find every signal of the item
whose current row is OPEN, and append one FULFILLED row per such signal;
returns the rows inserted. -/
def fulfill_open_signals (db : DBState) (item : String) (fulfillEventId : Nat) :
    List SignalRow × DBState :=
  (openCurrentRows db item).foldl (fulfillOne fulfillEventId) ([], db)

/-! ## Barcode parser (`api/barcode_parser.py`)

`parse_barcode` matches the stripped raw string against
`^ITEM=([^;]+);QTY=(\d+)$` and additionally rejects `qty ≤ 0`.
The regex and Python's `str.strip` are translated into explicit
character-list processing. -/

/-- Parsed barcode data (`ParsedBarcode`). -/
structure ParsedBarcode where
  item_id : String
  qty : Nat
deriving DecidableEq, Repr

/-- Python `str.strip()`: drop whitespace from both ends. -/
def stripChars (cs : List Char) : List Char :=
  ((cs.dropWhile Char.isWhitespace).reverse.dropWhile Char.isWhitespace).reverse

/-- Split a character list at its first `';'`; `none` when there is no
`';'`. The first component therefore never contains `';'`. -/
def splitAtSemi : List Char → Option (List Char × List Char)
  | [] => none
  | c :: rest =>
    if c = ';' then some ([], rest)
    else
      match splitAtSemi rest with
      | some (a, b) => some (c :: a, b)
      | none => none

/-- Strip an expected literal prefix, or fail. -/
def dropLit : List Char → List Char → Option (List Char)
  | [], cs => some cs
  | _ :: _, [] => none
  | p :: ps, c :: cs => if c = p then dropLit ps cs else none

/-- Value of a digit string (`int()` on the `\d+` capture). -/
def digitsVal (cs : List Char) : Nat :=
  cs.foldl (fun acc c => 10 * acc + (c.toNat - 48)) 0

/-- `parse_barcode`: full match of the stripped string against
`ITEM=([^;]+);QTY=(\d+)` with `qty > 0`; errors are the
`BarcodeParseError` messages. -/
def parse_barcode (barcode_raw : String) : Except String ParsedBarcode :=
  let cs := stripChars barcode_raw.data
  match dropLit "ITEM=".data cs with
  | none => .error "Invalid barcode format"
  | some rest =>
    match splitAtSemi rest with
    | none => .error "Invalid barcode format"
    | some (itemCs, afterSemi) =>
      if itemCs.isEmpty then .error "Invalid barcode format"
      else
        match dropLit "QTY=".data afterSemi with
        | none => .error "Invalid barcode format"
        | some digitCs =>
          if digitCs.isEmpty ∨ ¬ digitCs.all Char.isDigit then
            .error "Invalid barcode format"
          else
            let qty := digitsVal digitCs
            if qty = 0 then .error "Quantity must be positive"
            else .ok { item_id := ⟨itemCs⟩, qty := qty }

/-! ## Inventory service (`core/inventory_service.py`)

The service holds the in-memory debounce cache `_last_scans`
(a dict from raw barcode to the wall-clock time of its last admitted
scan) next to the database, plus the settings read at startup
(`config.py`: `reorder_point = 10`, `reorder_qty = 24`,
`debounce_seconds = 3`). Python exceptions leave instance state
mutated, so every service call returns its final state together with
an `Except` result. -/

/-- `InventorySettings` (config.py defaults). -/
structure Settings where
  reorder_point : Int := 10
  reorder_qty : Int := 24
  debounce_seconds : Int := 3
deriving DecidableEq, Repr

/-- Errors raised by the service write paths. `duplicateScan` carries the
remaining wait (`debounce_seconds - elapsed`, embedded in the message in
the source); `barcodeParse` carries the parse error message. -/
inductive SvcError where
  | duplicateScan (remaining : Int)
  | barcodeParse (msg : String)
deriving DecidableEq, Repr

/-- `InventoryService` state: database plus `_last_scans`, an assoc list
with unique keys standing for the Python dict. -/
structure ServiceState where
  db : DBState
  lastScans : List (String × Int)
  settings : Settings
deriving Repr

/-- Replace/insert the entry for `barcode` (Python dict assignment). -/
def setScan (scans : List (String × Int)) (barcode : String) (now : Int) :
    List (String × Int) :=
  (barcode, now) :: scans.filter (fun p => ¬ p.1 = barcode)

/-- `InventoryService._check_debounce`: reject (with remaining wait) when
the barcode's last admitted scan is less than `debounce_seconds` in the
past; otherwise record `now` for the barcode and prune entries older
than one minute. A rejection leaves the stored timestamps unchanged. -/
def check_debounce (st : ServiceState) (now : Int) (barcode : String) :
    Except Int (List (String × Int)) :=
  match st.lastScans.lookup barcode with
  | some last =>
    if now - last < st.settings.debounce_seconds then
      .error (st.settings.debounce_seconds - (now - last))
    else
      .ok ((setScan st.lastScans barcode now).filter (fun p => now - 60 < p.2))
  | none =>
    .ok ((setScan st.lastScans barcode now).filter (fun p => now - 60 < p.2))

/-- `InventoryService.create_intake_event`: debounce (recording the
admitted timestamp), then parse, then append the INTAKE event, recompute
on-hand, and auto-fulfill open signals when on-hand exceeds the reorder
point. A `barcodeParse` failure happens after the debounce slot was
recorded, so the returned state keeps the updated `lastScans`. -/
def create_intake_event (st : ServiceState) (now : Int)
    (station barcode : String) (user : Option String) :
    ServiceState × Except SvcError (ScanEvent × Int) :=
  match check_debounce st now barcode with
  | .error remaining => (st, .error (.duplicateScan remaining))
  | .ok scans' =>
    let st1 := { st with lastScans := scans' }
    match parse_barcode barcode with
    | .error msg => (st1, .error (.barcodeParse msg))
    | .ok parsed =>
      let (ev, db1) := create_event st1.db .INTAKE station barcode
        parsed.item_id parsed.qty user
      let onHand := get_on_hand_qty db1 parsed.item_id
      let db2 :=
        if st.settings.reorder_point < onHand then
          (fulfill_open_signals db1 parsed.item_id ev.event_id).2
        else db1
      ({ st1 with db := db2 }, .ok (ev, onHand))

/-- `InventoryService.create_consume_event`: debounce, parse, append the
CONSUME event, recompute on-hand, and when on-hand is at or below the
reorder point try to create an OPEN replenishment signal. -/
def create_consume_event (st : ServiceState) (now : Int)
    (station barcode : String) (user : Option String) :
    ServiceState × Except SvcError (ScanEvent × Int × Option SignalRow) :=
  match check_debounce st now barcode with
  | .error remaining => (st, .error (.duplicateScan remaining))
  | .ok scans' =>
    let st1 := { st with lastScans := scans' }
    match parse_barcode barcode with
    | .error msg => (st1, .error (.barcodeParse msg))
    | .ok parsed =>
      let (ev, db1) := create_event st1.db .CONSUME station barcode
        parsed.item_id parsed.qty user
      let onHand := get_on_hand_qty db1 parsed.item_id
      if onHand ≤ st.settings.reorder_point then
        let (sig, db2) := create_signal db1 parsed.item_id onHand ev.event_id
          st.settings.reorder_point st.settings.reorder_qty
        ({ st1 with db := db2 }, .ok (ev, onHand, sig))
      else
        ({ st1 with db := db1 }, .ok (ev, onHand, none))

/-! ## API layer pieces needed by the claims (`api/main.py`) -/

/-- `acknowledge_signal`: `update_signal_status(signal_id, ACKNOWLEDGED)`,
404 NotFound exactly when it returns `None`. -/
def acknowledge_signal (db : DBState) (sid : Nat) :
    Option SignalView × DBState :=
  update_signal_status db sid .ACKNOWLEDGED

/-- A line item of a bulk intake request (`BulkIntakeItem`; the schema
enforces `qty ≥ 1`). -/
structure BulkItem where
  item_id : String
  qty : Nat
deriving DecidableEq, Repr

/-- Decimal digit character (for rendering `str(qty)`). -/
def digitChar : Nat → Char
  | 0 => '0' | 1 => '1' | 2 => '2' | 3 => '3' | 4 => '4'
  | 5 => '5' | 6 => '6' | 7 => '7' | 8 => '8' | _ => '9'

/-- Decimal digits of `n`, most significant first (`str(n)` for a
natural number). -/
def natDigits (n : Nat) : List Char :=
  if _h : n < 10 then [digitChar n]
  else natDigits (n / 10) ++ [digitChar (n % 10)]
termination_by n
decreasing_by
  exact Nat.div_lt_self (by omega) (by decide)

/-- The synthetic barcode `f"ITEM={item.item_id};QTY={item.qty}"` built
by `create_bulk_intake` for each line item. -/
def syntheticBarcode (it : BulkItem) : String :=
  "ITEM=" ++ it.item_id ++ ";QTY=" ++ ⟨natDigits it.qty⟩

/-- The loop body of `create_bulk_intake`: each line item (paired here
with the wall-clock time of its iteration) goes through
`create_intake_event` with its synthetic barcode; a `DuplicateScanError`
is caught and the item skipped; a `BarcodeParseError` propagates out of
the endpoint. Returns the admitted events and the final state. -/
def bulkGo (station : String) (user : Option String) :
    ServiceState → List (BulkItem × Int) →
    Except String (List ScanEvent × ServiceState)
  | st, [] => .ok ([], st)
  | st, (it, t) :: rest =>
    match create_intake_event st t station (syntheticBarcode it) user with
    | (st1, .ok (ev, _)) =>
      match bulkGo station user st1 rest with
      | .ok (evs, st') => .ok (ev :: evs, st')
      | .error m => .error m
    | (st1, .error (.duplicateScan _)) => bulkGo station user st1 rest
    | (_, .error (.barcodeParse m)) => .error m

/-- `BulkIntakeResponse` totals: `total_items = len(events)`,
`total_qty = sum(e.qty for e in events)`. -/
structure BulkResponse where
  events : List ScanEvent
  total_items : Nat
  total_qty : Nat
deriving Repr

/-- `create_bulk_intake` (api/main.py): run the loop and assemble the
response totals from the admitted events. -/
def create_bulk_intake (st : ServiceState) (station : String)
    (user : Option String) (items : List (BulkItem × Int)) :
    Except String (BulkResponse × ServiceState) :=
  match bulkGo station user st items with
  | .error m => .error m
  | .ok (evs, st') =>
    .ok ({ events := evs, total_items := evs.length,
           total_qty := (evs.map (fun e => e.qty)).sum }, st')

/-! ## Concurrency model for the OPEN-signal race (spec §5)

`create_signal` runs its `has_open_signal` check and its INSERT in two
separate transactions (two separate `self.session()` blocks in
db/postgres.py), with no lock and no conditional unique index — the
migration in cli.py explicitly drops the old
`idx_replenishment_signals_item_open` partial unique index. Two
concurrent consume workers are modelled as interleaved atomic
transactions: each worker first runs the check transaction
(`has_open_signal`), then, if its recorded check came back false, the
insert transaction (`insertOpenRow`, exactly the insert half of
`create_signal`). -/

/-- Number of logical signals of the item whose current row is OPEN. -/
def openCurrentCount (db : DBState) (item : String) : Nat :=
  (openCurrentRows db item).length

/-- The shared store plus each worker's private view of its completed
check transaction (`none` before the check ran). -/
structure RaceState where
  db : DBState
  saw1 : Option Bool
  saw2 : Option Bool

/-- The four atomic transactions of two workers racing through
`create_signal` for the same item. -/
inductive RaceStep where
  | check1
  | check2
  | insert1
  | insert2

/-- Run one transaction: a check records `has_open_signal`; an insert
performs the INSERT only if that worker's check observed no OPEN signal
(the `if self.has_open_signal(item_id): return None` branch). -/
def raceStep (item : String) (q : Int) (e1 e2 : Nat) (s : RaceState) :
    RaceStep → RaceState
  | .check1 => { s with saw1 := some (has_open_signal s.db item) }
  | .check2 => { s with saw2 := some (has_open_signal s.db item) }
  | .insert1 =>
    match s.saw1 with
    | some false => { s with db := (insertOpenRow s.db item q e1 10 24).2 }
    | _ => s
  | .insert2 =>
    match s.saw2 with
    | some false => { s with db := (insertOpenRow s.db item q e2 10 24).2 }
    | _ => s

/-- Run a schedule (interleaving) of transactions. -/
def runRace (item : String) (q : Int) (e1 e2 : Nat) (db : DBState)
    (sched : List RaceStep) : RaceState :=
  sched.foldl (raceStep item q e1 e2) { db := db, saw1 := none, saw2 := none }

/-! ## Verification-side helper definitions -/

/-- The (non-strict) ranking order on physical rows underlying
`rowLater`: `a` is at or before `b` by `(created_ts, row_id)`. -/
def lexLe (a b : SignalRow) : Prop :=
  a.created_ts < b.created_ts ∨
    (a.created_ts = b.created_ts ∧ a.row_id ≤ b.row_id)

/-- Closed form of the insert loop of `fulfill_open_signals`: the
FULFILLED rows it appends for the current-OPEN rows `l`, starting from
the given SERIAL counter and clock. -/
def fulfilledRows (eid : Nat) (rowId clock : Nat) : List SignalRow → List SignalRow
  | [] => []
  | s :: rest =>
    { row_id := rowId, signal_id := s.signal_id, created_ts := clock,
      item_id := s.item_id, triggered_at_qty := s.triggered_at_qty,
      reorder_point := s.reorder_point, reorder_qty := s.reorder_qty,
      trigger_event_id := eid, status := .FULFILLED }
      :: fulfilledRows eid (rowId + 1) (clock + 1) rest

/-- A bulk line item the barcode round-trip is defined for: non-empty
`item_id` with no `';'` (so the synthetic barcode parses back to it) and
the `qty ≥ 1` the request schema enforces. -/
def validItem (it : BulkItem) : Prop :=
  it.item_id ≠ "" ∧ (∀ c ∈ it.item_id.data, c ≠ ';') ∧ 1 ≤ it.qty

/-- Specification of which line items a bulk request admits: the first
occurrence of each synthetic barcode is admitted, later occurrences are
skipped (`seen` holds the barcodes already admitted). -/
def admittedLineItems (seen : List String) : List (BulkItem × Int) → List BulkItem
  | [] => []
  | (it, _) :: rest =>
    let bc := syntheticBarcode it
    if bc ∈ seen then admittedLineItems seen rest
    else it :: admittedLineItems (bc :: seen) rest

/-! ## Concrete states used by witnesses and counterexamples -/

/-- A fresh service: empty database, empty debounce cache, default
settings (reorder point 10, reorder qty 24, debounce 3s). -/
def svc0 : ServiceState :=
  { db := DBState.empty, lastScans := [], settings := {} }

/-- After `INTAKE A 12` at t=0 (on hand 12). -/
def svc1 : ServiceState := (create_intake_event svc0 0 "S1" "ITEM=A;QTY=12" none).1

/-- After a further `CONSUME A 3` at t=10 (on hand 9 ≤ 10, so one OPEN
signal was created for `A`). -/
def svc2 : ServiceState := (create_consume_event svc1 10 "S1" "ITEM=A;QTY=3" none).1

/-- The witness database: events `[INTAKE A 12, CONSUME A 3]` and one
OPEN signal for `A`. -/
def dbWitness : DBState := svc2.db

/-- After a further `INTAKE A 6` at t=20 (on hand 15 > 10): the OPEN
signal of `A` was auto-fulfilled, so signal 0 is currently FULFILLED. -/
def svc3 : ServiceState := (create_intake_event svc2 20 "S1" "ITEM=A;QTY=6" none).1

/-- A database whose only logical signal is currently FULFILLED. -/
def dbC3 : DBState := svc3.db

/-- `dbWitness` with signal 0 acknowledged by an operator: the signal is
currently ACKNOWLEDGED and on-hand is 9. -/
def svcAck : ServiceState := { svc2 with db := (acknowledge_signal svc2.db 0).2 }

/-- The race scenario start state: on hand 9 for `A` (at or below the
reorder point 10) and no signal rows yet. -/
def dbRace : DBState := { dbWitness with signals := [] }

/-- `svcAck` after `INTAKE A 6` at t=30 (on hand 9 → 15 > 10), the
situation in which the spec expects the ACKNOWLEDGED signal to be
fulfilled. -/
def svcC4 : ServiceState := (create_intake_event svcAck 30 "S1" "ITEM=A;QTY=6" none).1

/-- The CONSUME event appended by the `svc1 → svc2` step. -/
def evC5 : ScanEvent :=
  { event_id := 1, event_ts := 1, event_type := .CONSUME, station_id := "S1",
    barcode_raw := "ITEM=A;QTY=3", item_id := "A", qty := 3, user_email := none }

/-- The OPEN signal row appended by the `svc1 → svc2` step. -/
def rowC5 : SignalRow :=
  { row_id := 0, signal_id := 0, created_ts := 2, item_id := "A",
    triggered_at_qty := 9, reorder_point := 10, reorder_qty := 24,
    trigger_event_id := 1, status := .OPEN }

/-- The debounce cache after the `svc1 → svc2` step admitted its scan. -/
def scansC5 : List (String × Int) := [("ITEM=A;QTY=3", 10), ("ITEM=A;QTY=12", 0)]

/-- The current (latest) row of signal 0 in `dbC3`: the FULFILLED row. -/
def rowC7 : SignalRow :=
  { row_id := 1, signal_id := 0, created_ts := 4, item_id := "A",
    triggered_at_qty := 9, reorder_point := 10, reorder_qty := 24,
    trigger_event_id := 2, status := .FULFILLED }

/-- The view `get_signals` returns for signal 0 of `dbC3`. -/
def vC7 : SignalView := viewOf dbC3.events rowC7

/-- A bulk request with a duplicated line item (`A`, qty 2 twice) and a
distinct one (`B`), all within one debounce window. -/
def pairsC10 : List (BulkItem × Int) :=
  [(⟨"A", 2⟩, 0), (⟨"A", 2⟩, 1), (⟨"B", 1⟩, 2)]

/-! ## Ledger lemmas -/

theorem foldl_condSum (ty : EventType) (evs : List ScanEvent) (a : Int) :
    evs.foldl (fun acc e => if e.event_type = ty then acc + (e.qty : Int) else acc) a
      = a + ((evs.filter (fun e => e.event_type = ty)).map (fun e => (e.qty : Int))).sum := by
  induction evs generalizing a with
  | nil => simp
  | cons e rest ih =>
    by_cases h : e.event_type = ty <;>
      simp [List.filter_cons, h, ih, add_assoc]

theorem sumQtyOfType_eq (evs : List ScanEvent) (ty : EventType) :
    sumQtyOfType evs ty
      = ((evs.filter (fun e => e.event_type = ty)).map (fun e => (e.qty : Int))).sum := by
  simpa using foldl_condSum ty evs 0

theorem filter_item_type (db : DBState) (item : String) (ty : EventType) :
    (db.events.filter (fun e => e.item_id = item)).filter (fun e => e.event_type = ty)
      = db.events.filter (fun e => e.item_id = item ∧ e.event_type = ty) := by
  rw [List.filter_filter]
  congr 1
  funext e
  simp [Bool.and_comm]

/-- C1: for every item and every sequence of INTAKE/CONSUME events, the
ledger read path (`get_inventory_item` / `get_on_hand_qty`) computes
on-hand as the sum of INTAKE quantities minus the sum of CONSUME
quantities over that item's events, and `get_on_hand_qty` returns 0 for
an item with no events. -/
theorem c1_on_hand_is_event_sum (db : DBState) (item : String) :
    get_on_hand_qty db item =
      ((db.events.filter (fun e => e.item_id = item ∧ e.event_type = .INTAKE)).map
        (fun e => (e.qty : Int))).sum -
      ((db.events.filter (fun e => e.item_id = item ∧ e.event_type = .CONSUME)).map
        (fun e => (e.qty : Int))).sum ∧
    (db.events.filter (fun e => e.item_id = item) = [] →
      get_on_hand_qty db item = 0) := by
  constructor
  · rw [← filter_item_type, ← filter_item_type]
    unfold get_on_hand_qty get_inventory_item
    by_cases h : (db.events.filter (fun e => e.item_id = item)).isEmpty
    · rw [List.isEmpty_iff] at h
      simp [h]
    · simp only [h, if_false, Bool.false_eq_true]
      simp [sumQtyOfType_eq]
  · intro h
    unfold get_on_hand_qty get_inventory_item
    simp [h]

/-- Witness for C1 at a concrete database: one INTAKE of 12 and one
CONSUME of 3 for item `A`, queried for `A` and for the unseen item `B`. -/
theorem c1_on_hand_is_event_sum_witness :
    (get_on_hand_qty dbWitness "A" =
      ((dbWitness.events.filter (fun e => e.item_id = "A" ∧ e.event_type = .INTAKE)).map
        (fun e => (e.qty : Int))).sum -
      ((dbWitness.events.filter (fun e => e.item_id = "A" ∧ e.event_type = .CONSUME)).map
        (fun e => (e.qty : Int))).sum ∧
    (dbWitness.events.filter (fun e => e.item_id = "A") = [] →
      get_on_hand_qty dbWitness "A" = 0)) ∧
    get_on_hand_qty dbWitness "B" = 0 :=
  ⟨c1_on_hand_is_event_sum dbWitness "A",
   (c1_on_hand_is_event_sum dbWitness "B").2 (by decide)⟩

/-- C2: if a currently-OPEN signal exists for an item, `create_signal`
appends nothing and returns `none`; consequently a consume event on the
service path adds no signal row and reports no triggered signal when the
item already has an OPEN signal. -/
theorem c2_no_second_open_signal (db : DBState) (item : String) (q : Int)
    (e : Nat) (rp rq : Int) :
    (has_open_signal db item = true → create_signal db item q e rp rq = (none, db)) ∧
    (∀ (st : ServiceState) (now : Int) (station barcode : String)
       (user : Option String) (parsed : ParsedBarcode),
       parse_barcode barcode = .ok parsed →
       has_open_signal st.db parsed.item_id = true →
       (create_consume_event st now station barcode user).1.db.signals
           = st.db.signals ∧
       ∀ ev oh sig,
         (create_consume_event st now station barcode user).2 = .ok (ev, oh, sig) →
         sig = none) := by
  constructor
  · intro h
    simp [create_signal, h]
  · intro st now station barcode user parsed hparse hopen
    unfold create_consume_event
    cases hcd : check_debounce st now barcode with
    | error remaining => exact ⟨rfl, by intro ev oh sig h; cases h⟩
    | ok scans' =>
      rw [hparse]
      simp only
      have hopen1 : has_open_signal
          (create_event st.db .CONSUME station barcode
            parsed.item_id parsed.qty user).2 parsed.item_id = true := hopen
      by_cases hle : get_on_hand_qty
          (create_event st.db .CONSUME station barcode
            parsed.item_id parsed.qty user).2 parsed.item_id ≤ st.settings.reorder_point
      · rw [if_pos hle]
        simp only [create_signal, hopen1, if_true]
        exact ⟨rfl, by intro ev oh sig h; cases h; rfl⟩
      · rw [if_neg hle]
        exact ⟨rfl, by intro ev oh sig h; cases h; rfl⟩

/-- Witness for C2: item `A` of `dbWitness` has an OPEN signal, so a
direct `create_signal` is a no-op and a second consume (9 → 5, still at
or below the reorder point) triggers no new signal row. -/
theorem c2_no_second_open_signal_witness :
    create_signal dbWitness "A" 5 7 10 24 = (none, dbWitness) ∧
    ((create_consume_event svc2 20 "S1" "ITEM=A;QTY=4" none).1.db.signals
        = svc2.db.signals ∧
     ∀ ev oh sig,
       (create_consume_event svc2 20 "S1" "ITEM=A;QTY=4" none).2 = .ok (ev, oh, sig) →
       sig = none) :=
  ⟨(c2_no_second_open_signal dbWitness "A" 5 7 10 24).1 (by decide),
   (c2_no_second_open_signal dbWitness "A" 5 7 10 24).2 svc2 20 "S1" "ITEM=A;QTY=4"
     none ⟨"A", 4⟩ rfl (by decide)⟩

/-! ## Latest-row lemmas -/

theorem latestRowFor_eq_none (rows : List SignalRow) (sid : Nat)
    (h : ∀ r ∈ rows, ¬ r.signal_id = sid) : latestRowFor rows sid = none := by
  unfold latestRowFor
  have : rows.filter (fun r => r.signal_id = sid) = [] := by
    rw [List.filter_eq_nil_iff]
    simpa using h
  rw [this]
  rfl

theorem lexLe_refl (a : SignalRow) : lexLe a a := Or.inr ⟨rfl, le_refl _⟩

theorem lexLe_trans {a b c : SignalRow} (h1 : lexLe a b) (h2 : lexLe b c) :
    lexLe a c := by
  unfold lexLe at *
  omega

theorem lexLe_of_rowLater {a b : SignalRow} (h : rowLater b a = true) :
    lexLe a b := by
  simp only [rowLater, decide_eq_true_eq] at h
  unfold lexLe
  omega

theorem lexLe_of_not_rowLater {a b : SignalRow} (h : ¬ rowLater a b = true) :
    lexLe a b := by
  simp only [rowLater, decide_eq_true_eq] at h
  unfold lexLe
  omega

theorem foldl_pickLater_some_max (l : List SignalRow) :
    ∀ m r : SignalRow, l.foldl pickLater (some m) = some r →
      lexLe m r ∧ ∀ x ∈ l, lexLe x r := by
  induction l with
  | nil =>
    intro m r h
    cases h
    exact ⟨lexLe_refl m, by simp⟩
  | cons x xs ih =>
    intro m r h
    simp only [List.foldl_cons, pickLater] at h
    by_cases hx : rowLater x m = true
    · rw [if_pos hx] at h
      obtain ⟨h1, h2⟩ := ih x r h
      refine ⟨lexLe_trans (lexLe_of_rowLater hx) h1, ?_⟩
      intro y hy
      rcases List.mem_cons.mp hy with rfl | hy
      · exact h1
      · exact h2 y hy
    · rw [if_neg hx] at h
      obtain ⟨h1, h2⟩ := ih m r h
      refine ⟨h1, ?_⟩
      intro y hy
      rcases List.mem_cons.mp hy with rfl | hy
      · exact lexLe_trans (lexLe_of_not_rowLater hx) h1
      · exact h2 y hy

theorem foldl_pickLater_some_mem (l : List SignalRow) :
    ∀ m r : SignalRow, l.foldl pickLater (some m) = some r → r = m ∨ r ∈ l := by
  induction l with
  | nil =>
    intro m r h
    cases h
    exact Or.inl rfl
  | cons x xs ih =>
    intro m r h
    simp only [List.foldl_cons, pickLater] at h
    by_cases hx : rowLater x m = true
    · rw [if_pos hx] at h
      rcases ih x r h with rfl | hr
      · exact Or.inr (List.mem_cons_self ..)
      · exact Or.inr (List.mem_cons_of_mem _ hr)
    · rw [if_neg hx] at h
      rcases ih m r h with rfl | hr
      · exact Or.inl rfl
      · exact Or.inr (List.mem_cons_of_mem _ hr)

theorem foldl_pickLater_isSome (l : List SignalRow) :
    ∀ m : SignalRow, ∃ r, l.foldl pickLater (some m) = some r := by
  induction l with
  | nil => exact fun m => ⟨m, rfl⟩
  | cons x xs ih =>
    intro m
    simp only [List.foldl_cons, pickLater]
    by_cases hx : rowLater x m = true
    · rw [if_pos hx]; exact ih x
    · rw [if_neg hx]; exact ih m

theorem foldl_pickLater_none (l : List SignalRow) (r : SignalRow)
    (h : l.foldl pickLater none = some r) :
    r ∈ l ∧ ∀ x ∈ l, lexLe x r := by
  cases l with
  | nil => cases h
  | cons x xs =>
    simp only [List.foldl_cons, pickLater] at h
    obtain ⟨h1, h2⟩ := foldl_pickLater_some_max xs x r h
    refine ⟨?_, ?_⟩
    · rcases foldl_pickLater_some_mem xs x r h with rfl | hr
      · exact List.mem_cons_self ..
      · exact List.mem_cons_of_mem _ hr
    · intro y hy
      rcases List.mem_cons.mp hy with rfl | hy
      · exact h1
      · exact h2 y hy

/-- A latest row belongs to the store, carries the requested
`signal_id`, and ranks at or above every row of that signal. -/
theorem latestRowFor_spec (rows : List SignalRow) (sid : Nat) (r : SignalRow)
    (h : latestRowFor rows sid = some r) :
    r ∈ rows ∧ r.signal_id = sid ∧
      ∀ x ∈ rows, x.signal_id = sid → lexLe x r := by
  unfold latestRowFor at h
  obtain ⟨hmem, hmax⟩ := foldl_pickLater_none _ _ h
  have hm := List.mem_filter.mp hmem
  refine ⟨hm.1, by simpa using hm.2, ?_⟩
  intro x hx hsid
  exact hmax x (List.mem_filter.mpr ⟨hx, by simp [hsid]⟩)

theorem latestRowFor_isSome (rows : List SignalRow) (sid : Nat) (r : SignalRow)
    (hr : r ∈ rows) (hsid : r.signal_id = sid) :
    ∃ m, latestRowFor rows sid = some m := by
  unfold latestRowFor
  have hmem : r ∈ rows.filter (fun x => x.signal_id = sid) :=
    List.mem_filter.mpr ⟨hr, by simp [hsid]⟩
  cases hfil : rows.filter (fun x => x.signal_id = sid) with
  | nil => rw [hfil] at hmem; cases hmem
  | cons a l =>
    simp only [List.foldl_cons, pickLater]
    exact foldl_pickLater_isSome l a

theorem mem_currentRows_iff (rows : List SignalRow) (r : SignalRow) :
    r ∈ currentRows rows ↔ ∃ sid, latestRowFor rows sid = some r := by
  unfold currentRows
  rw [List.mem_filterMap]
  constructor
  · rintro ⟨sid, _, h⟩
    exact ⟨sid, h⟩
  · rintro ⟨sid, h⟩
    obtain ⟨hmem, hsid, -⟩ := latestRowFor_spec rows sid r h
    refine ⟨sid, ?_, h⟩
    unfold signalIds
    rw [List.mem_dedup]
    exact hsid ▸ List.mem_map_of_mem _ hmem

theorem has_open_signal_iff (db : DBState) (item : String) :
    has_open_signal db item = true ↔
      ∃ sid r, latestRowFor (db.signals.filter (fun x => x.item_id = item)) sid
          = some r ∧ r.status = .OPEN := by
  unfold has_open_signal
  rw [List.any_eq_true]
  constructor
  · rintro ⟨r, hrmem, hst⟩
    obtain ⟨sid, h⟩ := (mem_currentRows_iff _ _).mp hrmem
    exact ⟨sid, r, h, by simpa using hst⟩
  · rintro ⟨sid, r, h, hst⟩
    exact ⟨r, (mem_currentRows_iff _ _).mpr ⟨sid, h⟩, by simp [hst]⟩

theorem latestRowFor_append_right_nil (xs ys : List SignalRow) (sid : Nat)
    (h : ys.filter (fun r => r.signal_id = sid) = []) :
    latestRowFor (xs ++ ys) sid = latestRowFor xs sid := by
  unfold latestRowFor
  rw [List.filter_append, h, List.append_nil]

/-- C3 counterexample: in `dbC3` signal 0 is currently FULFILLED, yet
`acknowledge_signal` succeeds (returns a record) and appends a row,
where the claim demands a NotFound failure and no appended row. -/
theorem c3_counterexample :
    (latestRowFor dbC3.signals 0).map (fun r => r.status) = some .FULFILLED ∧
    (acknowledge_signal dbC3 0).1.isSome = true ∧
    (acknowledge_signal dbC3 0).2.signals.length = dbC3.signals.length + 1 := by
  decide

/-- C3 amended: `acknowledge` fails with NotFound (returns `none`,
appending nothing) exactly when no physical row for the signal id
exists; whenever any row exists — whatever the signal's current state,
OPEN, ACKNOWLEDGED or FULFILLED — it succeeds and appends one
ACKNOWLEDGED row copying the latest row's fields forward. -/
theorem c3_ack_succeeds_iff_row_exists (db : DBState) (sid : Nat) :
    ((∀ r ∈ db.signals, ¬ r.signal_id = sid) →
        acknowledge_signal db sid = (none, db)) ∧
    (∀ ex, latestRowFor db.signals sid = some ex →
        (acknowledge_signal db sid).1.isSome = true ∧
        (acknowledge_signal db sid).2.signals
          = db.signals ++
            [{ row_id := db.nextRowId, signal_id := ex.signal_id,
               created_ts := db.clock, item_id := ex.item_id,
               triggered_at_qty := ex.triggered_at_qty,
               reorder_point := ex.reorder_point,
               reorder_qty := ex.reorder_qty,
               trigger_event_id := ex.trigger_event_id,
               status := .ACKNOWLEDGED }]) := by
  constructor
  · intro h
    unfold acknowledge_signal update_signal_status
    rw [latestRowFor_eq_none db.signals sid h]
  · intro ex hex
    unfold acknowledge_signal update_signal_status
    rw [hex]
    exact ⟨rfl, rfl⟩

/-- Witness for C3's amended theorem: acknowledging the (FULFILLED)
signal 0 of `dbC3` succeeds and appends an ACKNOWLEDGED row;
acknowledging the unknown signal 99 is a NotFound no-op. -/
theorem c3_ack_succeeds_iff_row_exists_witness :
    acknowledge_signal dbC3 99 = (none, dbC3) ∧
    ((acknowledge_signal dbC3 0).1.isSome = true ∧
     (acknowledge_signal dbC3 0).2.signals
       = dbC3.signals ++
         [{ row_id := dbC3.nextRowId, signal_id := 0,
            created_ts := dbC3.clock, item_id := "A",
            triggered_at_qty := 9, reorder_point := 10, reorder_qty := 24,
            trigger_event_id := 2, status := .ACKNOWLEDGED }]) :=
  ⟨(c3_ack_succeeds_iff_row_exists dbC3 99).1 (by decide),
   (c3_ack_succeeds_iff_row_exists dbC3 0).2
     { row_id := 1, signal_id := 0, created_ts := 4, item_id := "A",
       triggered_at_qty := 9, reorder_point := 10, reorder_qty := 24,
       trigger_event_id := 2, status := .FULFILLED } (by decide)⟩

/-- C8: the check-then-insert of `create_signal` runs as two separate
unprotected transactions, so the interleaving in which both workers run
`has_open_signal` before either inserts leaves the item with TWO
current-OPEN signals, violating the exactly-one property: from `dbRace`
(on hand 9 ≤ reorder point 10, no signal), both checks observe no OPEN
signal, both inserts fire, and two logical signals end up current-OPEN. -/
theorem c8_race_two_open_signals :
    has_open_signal dbRace "A" = false ∧
    get_on_hand_qty dbRace "A" = 9 ∧
    (runRace "A" 9 1 2 dbRace [.check1, .check2, .insert1, .insert2]).saw1
      = some false ∧
    (runRace "A" 9 1 2 dbRace [.check1, .check2, .insert1, .insert2]).saw2
      = some false ∧
    openCurrentCount
      (runRace "A" 9 1 2 dbRace [.check1, .check2, .insert1, .insert2]).db "A"
      = 2 := by
  decide

/-- C5: a consume event whose resulting on-hand quantity is at or below
the reorder point, for an item with no currently-OPEN signal, appends
exactly one new signal row, with status OPEN, `triggered_at_qty` equal
to the post-event on-hand quantity, and the consume event as trigger. -/
theorem c5_consume_creates_open_signal (st : ServiceState) (now : Int)
    (station barcode : String) (user : Option String) (parsed : ParsedBarcode)
    (scans' : List (String × Int)) (st' : ServiceState) (ev : ScanEvent) (oh : Int)
    (sig : Option SignalRow)
    (hcd : check_debounce st now barcode = .ok scans')
    (hparse : parse_barcode barcode = .ok parsed)
    (hopen : has_open_signal st.db parsed.item_id = false)
    (hrun : create_consume_event st now station barcode user = (st', .ok (ev, oh, sig)))
    (hle : oh ≤ st.settings.reorder_point) :
    ∃ row : SignalRow,
      sig = some row ∧
      st'.db.signals = st.db.signals ++ [row] ∧
      row.status = .OPEN ∧
      row.triggered_at_qty = oh ∧
      row.item_id = parsed.item_id ∧
      row.trigger_event_id = ev.event_id ∧
      row.reorder_point = st.settings.reorder_point ∧
      row.reorder_qty = st.settings.reorder_qty := by
  unfold create_consume_event at hrun
  rw [hcd, hparse] at hrun
  simp only at hrun
  by_cases hle' : get_on_hand_qty
      (create_event st.db .CONSUME station barcode parsed.item_id parsed.qty user).2
      parsed.item_id ≤ st.settings.reorder_point
  · rw [if_pos hle'] at hrun
    have hopen1 : has_open_signal
        (create_event st.db .CONSUME station barcode parsed.item_id parsed.qty user).2
        parsed.item_id = false := hopen
    simp only [create_signal, hopen1, Bool.false_eq_true, if_false, insertOpenRow]
      at hrun
    obtain ⟨h1, h2⟩ := Prod.mk.injEq .. ▸ hrun
    cases h1
    cases h2
    refine ⟨_, rfl, rfl, rfl, rfl, rfl, rfl, rfl, rfl⟩
  · rw [if_neg hle'] at hrun
    obtain ⟨h1, h2⟩ := Prod.mk.injEq .. ▸ hrun
    cases h2
    exact absurd hle hle'

/-- Witness for C5: the concrete consume `svc1 → svc2` (12 → 9 ≤ 10, no
prior signal) produced exactly the OPEN row `rowC5`. -/
theorem c5_consume_creates_open_signal_witness :
    ∃ row : SignalRow,
      some rowC5 = some row ∧
      svc2.db.signals = svc1.db.signals ++ [row] ∧
      row.status = .OPEN ∧
      row.triggered_at_qty = 9 ∧
      row.item_id = "A" ∧
      row.trigger_event_id = evC5.event_id ∧
      row.reorder_point = svc1.settings.reorder_point ∧
      row.reorder_qty = svc1.settings.reorder_qty :=
  c5_consume_creates_open_signal svc1 10 "S1" "ITEM=A;QTY=3" none ⟨"A", 3⟩
    scansC5 svc2 evC5 9 (some rowC5) rfl rfl (by decide) rfl (by decide)

/-! ## Debounce lemmas -/

theorem lookup_after_admit (L : List (String × Int)) (barcode : String) (now : Int) :
    ((setScan L barcode now).filter (fun p => now - 60 < p.2)).lookup barcode
      = some now := by
  unfold setScan
  rw [List.filter_cons_of_pos (by simp)]
  simp [List.lookup]

theorem consume_rejected_within_window (st : ServiceState) (now last : Int)
    (station barcode : String) (user : Option String)
    (hlk : st.lastScans.lookup barcode = some last)
    (hlt : now - last < st.settings.debounce_seconds) :
    create_consume_event st now station barcode user
      = (st, .error (.duplicateScan
           (st.settings.debounce_seconds - (now - last)))) := by
  unfold create_consume_event check_debounce
  rw [hlk]
  simp only [hlt, if_true, if_pos]

theorem intake_rejected_within_window (st : ServiceState) (now last : Int)
    (station barcode : String) (user : Option String)
    (hlk : st.lastScans.lookup barcode = some last)
    (hlt : now - last < st.settings.debounce_seconds) :
    create_intake_event st now station barcode user
      = (st, .error (.duplicateScan
           (st.settings.debounce_seconds - (now - last)))) := by
  unfold create_intake_event check_debounce
  rw [hlk]
  simp only [hlt, if_true, if_pos]

theorem debounce_admits_after_window (st : ServiceState) (now last : Int)
    (barcode : String)
    (hlk : st.lastScans.lookup barcode = some last)
    (hge : st.settings.debounce_seconds ≤ now - last) :
    ∃ scans', check_debounce st now barcode = .ok scans' ∧
      scans'.lookup barcode = some now := by
  unfold check_debounce
  rw [hlk]
  simp only
  rw [if_neg (by omega)]
  exact ⟨_, rfl, lookup_after_admit ..⟩

/-- C6: a scan whose barcode was admitted less than `debounce_seconds`
ago is rejected with `DuplicateScan` carrying the remaining wait,
appending no event and leaving the stored timestamp (and all state)
unchanged; once the window has elapsed since the last admitted scan the
same barcode passes the admission filter, which then records `now`. -/
theorem c6_debounce_reject_and_readmit_after_window (st : ServiceState) (now last : Int)
    (station barcode : String) (user : Option String) :
    (st.lastScans.lookup barcode = some last →
     now - last < st.settings.debounce_seconds →
     create_consume_event st now station barcode user
       = (st, .error (.duplicateScan
            (st.settings.debounce_seconds - (now - last))))) ∧
    (st.lastScans.lookup barcode = some last →
     st.settings.debounce_seconds ≤ now - last →
     ∃ scans', check_debounce st now barcode = .ok scans' ∧
       scans'.lookup barcode = some now) :=
  ⟨fun hlk hlt => consume_rejected_within_window st now last station barcode user hlk hlt,
   fun hlk hge => debounce_admits_after_window st now last barcode hlk hge⟩

/-- Witness for C6 at `svc2` (barcode `ITEM=A;QTY=3` admitted at t=10):
at t=12 the scan is rejected with 1s remaining and the state untouched;
at t=13 the window (3s) has elapsed and the scan is admitted. -/
theorem c6_debounce_reject_and_readmit_after_window_witness :
    (create_consume_event svc2 12 "S1" "ITEM=A;QTY=3" none
       = (svc2, .error (.duplicateScan 1))) ∧
    ∃ scans', check_debounce svc2 13 "ITEM=A;QTY=3" = .ok scans' ∧
      scans'.lookup "ITEM=A;QTY=3" = some 13 := by
  refine ⟨?_, ?_⟩
  · have h := (c6_debounce_reject_and_readmit_after_window svc2 12 10 "S1" "ITEM=A;QTY=3" none).1
      (by decide) (by decide)
    simpa using h
  · exact (c6_debounce_reject_and_readmit_after_window svc2 13 10 "S1" "ITEM=A;QTY=3" none).2
      (by decide) (by decide)

/-- C9: the debounce slot is recorded before barcode parsing in both
write paths, so a call failing with `BarcodeParseError` appends no event
yet still occupies the slot for its raw string, and any scan of the same
string within the window afterwards is rejected with `DuplicateScan` by
either path. -/
theorem c9_parse_failure_occupies_debounce (st : ServiceState) (now : Int)
    (station barcode : String) (user : Option String) (msg : String)
    (hlk : st.lastScans.lookup barcode = none)
    (hparse : parse_barcode barcode = .error msg) :
    ((create_intake_event st now station barcode user).2
        = .error (.barcodeParse msg) ∧
     (create_intake_event st now station barcode user).1.db = st.db ∧
     (create_intake_event st now station barcode user).1.lastScans.lookup barcode
        = some now) ∧
    ((create_consume_event st now station barcode user).2
        = .error (.barcodeParse msg) ∧
     (create_consume_event st now station barcode user).1.db = st.db ∧
     (create_consume_event st now station barcode user).1.lastScans.lookup barcode
        = some now) ∧
    (∀ now', now' - now < st.settings.debounce_seconds →
      create_intake_event (create_intake_event st now station barcode user).1 now'
          station barcode user
        = ((create_intake_event st now station barcode user).1,
           .error (.duplicateScan (st.settings.debounce_seconds - (now' - now)))) ∧
      create_consume_event (create_intake_event st now station barcode user).1 now'
          station barcode user
        = ((create_intake_event st now station barcode user).1,
           .error (.duplicateScan (st.settings.debounce_seconds - (now' - now))))) := by
  have hruni : create_intake_event st now station barcode user
      = ({ st with lastScans :=
             (setScan st.lastScans barcode now).filter (fun p => now - 60 < p.2) },
         .error (.barcodeParse msg)) := by
    unfold create_intake_event check_debounce
    rw [hlk]
    simp only
    rw [hparse]
  have hrunc : create_consume_event st now station barcode user
      = ({ st with lastScans :=
             (setScan st.lastScans barcode now).filter (fun p => now - 60 < p.2) },
         .error (.barcodeParse msg)) := by
    unfold create_consume_event check_debounce
    rw [hlk]
    simp only
    rw [hparse]
  refine ⟨⟨?_, ?_, ?_⟩, ⟨?_, ?_, ?_⟩, ?_⟩
  · rw [hruni]
  · rw [hruni]
  · rw [hruni]; exact lookup_after_admit ..
  · rw [hrunc]
  · rw [hrunc]
  · rw [hrunc]; exact lookup_after_admit ..
  · intro now' hlt
    rw [hruni]
    have hlk' : ({ st with lastScans :=
          (setScan st.lastScans barcode now).filter (fun p => now - 60 < p.2) } :
        ServiceState).lastScans.lookup barcode = some now := lookup_after_admit ..
    exact ⟨intake_rejected_within_window _ now' now station barcode user hlk' hlt,
           consume_rejected_within_window _ now' now station barcode user hlk' hlt⟩

/-- Witness for C9: scanning the malformed barcode `BAD` on a fresh
service at t=0 fails to parse yet occupies the debounce slot, and a
retry of `BAD` at t=2 (within the 3s window) is rejected as a duplicate
by both write paths. -/
theorem c9_parse_failure_occupies_debounce_witness :
    ((create_intake_event svc0 0 "S1" "BAD" none).2
        = .error (.barcodeParse "Invalid barcode format") ∧
     (create_intake_event svc0 0 "S1" "BAD" none).1.db = svc0.db ∧
     (create_intake_event svc0 0 "S1" "BAD" none).1.lastScans.lookup "BAD"
        = some 0) ∧
    ((create_consume_event svc0 0 "S1" "BAD" none).2
        = .error (.barcodeParse "Invalid barcode format") ∧
     (create_consume_event svc0 0 "S1" "BAD" none).1.db = svc0.db ∧
     (create_consume_event svc0 0 "S1" "BAD" none).1.lastScans.lookup "BAD"
        = some 0) ∧
    (create_intake_event (create_intake_event svc0 0 "S1" "BAD" none).1 2
        "S1" "BAD" none
      = ((create_intake_event svc0 0 "S1" "BAD" none).1,
         .error (.duplicateScan (svc0.settings.debounce_seconds - (2 - 0)))) ∧
     create_consume_event (create_intake_event svc0 0 "S1" "BAD" none).1 2
        "S1" "BAD" none
      = ((create_intake_event svc0 0 "S1" "BAD" none).1,
         .error (.duplicateScan (svc0.settings.debounce_seconds - (2 - 0))))) := by
  have h := c9_parse_failure_occupies_debounce svc0 0 "S1" "BAD" none
    "Invalid barcode format" rfl rfl
  exact ⟨h.1, h.2.1, h.2.2 2 (by decide)⟩

/-! ## Fulfillment lemmas -/

theorem fulfilledRows_length (eid : Nat) :
    ∀ (l : List SignalRow) (i c : Nat), (fulfilledRows eid i c l).length = l.length := by
  intro l
  induction l with
  | nil => intro i c; rfl
  | cons s rest ih => intro i c; simp [fulfilledRows, ih]

theorem mem_fulfilledRows (eid : Nat) :
    ∀ (l : List SignalRow) (i c : Nat) (f : SignalRow),
    f ∈ fulfilledRows eid i c l →
      f.status = .FULFILLED ∧ f.trigger_event_id = eid ∧ c ≤ f.created_ts ∧
      ∃ s ∈ l, f.signal_id = s.signal_id ∧ f.item_id = s.item_id ∧
        f.triggered_at_qty = s.triggered_at_qty ∧
        f.reorder_point = s.reorder_point ∧ f.reorder_qty = s.reorder_qty := by
  intro l
  induction l with
  | nil => intro i c f h; cases h
  | cons s rest ih =>
    intro i c f h
    rcases List.mem_cons.mp h with rfl | h
    · exact ⟨rfl, rfl, le_refl _, s, List.mem_cons_self .., rfl, rfl, rfl, rfl, rfl⟩
    · obtain ⟨h1, h2, h3, t, ht, h5⟩ := ih (i + 1) (c + 1) f h
      exact ⟨h1, h2, by omega, t, List.mem_cons_of_mem _ ht, h5⟩

theorem fulfilledRows_covers (eid : Nat) :
    ∀ (l : List SignalRow) (i c : Nat) (s : SignalRow),
    s ∈ l → ∃ f ∈ fulfilledRows eid i c l, f.signal_id = s.signal_id := by
  intro l
  induction l with
  | nil => intro i c s h; cases h
  | cons x rest ih =>
    intro i c s h
    rcases List.mem_cons.mp h with rfl | h
    · exact ⟨_, List.mem_cons_self .., rfl⟩
    · obtain ⟨f, hf, he⟩ := ih (i + 1) (c + 1) s h
      exact ⟨f, List.mem_cons_of_mem _ hf, he⟩

theorem foldl_fulfillOne_eq (eid : Nat) :
    ∀ (opens acc : List SignalRow) (db : DBState),
    opens.foldl (fulfillOne eid) (acc, db)
      = (acc ++ fulfilledRows eid db.nextRowId db.clock opens,
         { db with
             signals := db.signals ++ fulfilledRows eid db.nextRowId db.clock opens,
             nextRowId := db.nextRowId + opens.length,
             clock := db.clock + opens.length }) := by
  intro opens
  induction opens with
  | nil => intro acc db; simp [fulfilledRows]
  | cons s rest ih =>
    intro acc db
    rw [List.foldl_cons]
    show List.foldl (fulfillOne eid) (fulfillOne eid (acc, db) s) rest = _
    simp only [fulfillOne]
    rw [ih]
    rw [Prod.mk.injEq]
    refine ⟨?_, ?_⟩
    · simp [fulfilledRows, List.append_assoc]
    · simp only [fulfilledRows]
      congr 1 <;> simp [List.append_assoc] <;> omega

theorem fulfill_open_signals_eq (db : DBState) (item : String) (eid : Nat) :
    fulfill_open_signals db item eid
      = (fulfilledRows eid db.nextRowId db.clock (openCurrentRows db item),
         { db with
             signals := db.signals ++
               fulfilledRows eid db.nextRowId db.clock (openCurrentRows db item),
             nextRowId := db.nextRowId + (openCurrentRows db item).length,
             clock := db.clock + (openCurrentRows db item).length }) := by
  unfold fulfill_open_signals
  rw [foldl_fulfillOne_eq]
  simp

theorem openCurrentRows_sub (db : DBState) (item : String) (r : SignalRow)
    (h : r ∈ openCurrentRows db item) :
    r ∈ db.signals ∧ r.item_id = item ∧ r.status = .OPEN ∧
      latestRowFor (db.signals.filter (fun x => x.item_id = item)) r.signal_id
        = some r := by
  unfold openCurrentRows at h
  have hcur := List.mem_of_mem_filter h
  have hopen : r.status = .OPEN := by simpa using List.of_mem_filter h
  obtain ⟨sid, hl⟩ := (mem_currentRows_iff _ _).mp hcur
  obtain ⟨hmem, hsid, -⟩ := latestRowFor_spec _ _ _ hl
  exact ⟨List.mem_of_mem_filter hmem, by simpa using List.of_mem_filter hmem,
         hopen, hsid ▸ hl⟩

theorem has_open_after_fulfill (db : DBState) (item : String) (eid : Nat)
    (hclk : ∀ r ∈ db.signals, r.created_ts < db.clock) :
    has_open_signal (fulfill_open_signals db item eid).2 item = false := by
  set F := fulfilledRows eid db.nextRowId db.clock (openCurrentRows db item) with hF
  set P := db.signals.filter (fun r => r.item_id = item) with hP
  have hF_item : ∀ f ∈ F, f.item_id = item := by
    intro f hf
    obtain ⟨-, -, -, s, hs, -, hitem, -⟩ := mem_fulfilledRows eid _ _ _ f hf
    have := (openCurrentRows_sub db item s hs).2.1
    rw [hitem, this]
  have key : ∀ db' : DBState, db'.signals = db.signals ++ F →
      has_open_signal db' item = false := by
    intro db' hsig
    rw [Bool.eq_false_iff]
    intro hop
    obtain ⟨sid, r, hlatest, hOPEN⟩ := (has_open_signal_iff db' item).mp hop
    rw [hsig] at hlatest
    have hfil : (db.signals ++ F).filter (fun x => x.item_id = item) = P ++ F := by
      rw [List.filter_append]
      congr 1
      exact List.filter_eq_self.mpr (fun f hf => by simp [hF_item f hf])
    rw [hfil] at hlatest
    by_cases hFf : F.filter (fun x => x.signal_id = sid) = []
    · rw [latestRowFor_append_right_nil P F sid hFf] at hlatest
      obtain ⟨hrmem, hrsid, -⟩ := latestRowFor_spec P sid r hlatest
      have hrcur : r ∈ currentRows P := (mem_currentRows_iff P r).mpr ⟨sid, hlatest⟩
      have hropen : r ∈ openCurrentRows db item :=
        List.mem_filter.mpr ⟨hrcur, by simp [hOPEN]⟩
      obtain ⟨f, hfF, hfsid⟩ := fulfilledRows_covers eid _ _ _ r hropen
      have : f ∈ F.filter (fun x => x.signal_id = sid) :=
        List.mem_filter.mpr ⟨hfF, by simp [hfsid, hrsid]⟩
      rw [hFf] at this
      cases this
    · obtain ⟨f, hfmem⟩ := List.exists_mem_of_ne_nil _ hFf
      have hfF : f ∈ F := List.mem_of_mem_filter hfmem
      have hfsid : f.signal_id = sid := by simpa using List.of_mem_filter hfmem
      obtain ⟨hrmem, hrsid, hrmax⟩ := latestRowFor_spec (P ++ F) sid r hlatest
      have hle : lexLe f r := hrmax f (List.mem_append_right _ hfF) hfsid
      have hfts : db.clock ≤ f.created_ts :=
        (mem_fulfilledRows eid _ _ _ f hfF).2.2.1
      have hrts : db.clock ≤ r.created_ts := by
        unfold lexLe at hle
        omega
      rcases List.mem_append.mp hrmem with hrP | hrF
      · have := hclk r (List.mem_of_mem_filter hrP)
        omega
      · have := (mem_fulfilledRows eid _ _ _ r hrF).1
        rw [hOPEN] at this
        cases this
  refine key _ ?_
  rw [fulfill_open_signals_eq]

/-- C4 counterexample: in `svcAck` the item's only signal is currently
ACKNOWLEDGED; the intake at t=30 raises on-hand from 9 to 15 (> 10), yet
no FULFILLED row is appended for it — the signal store is unchanged and
the signal stays ACKNOWLEDGED, where the claim requires a FULFILLED row
for every current OPEN-or-ACKNOWLEDGED signal. -/
theorem c4_counterexample :
    (latestRowFor svcAck.db.signals 0).map (fun r => r.status)
      = some .ACKNOWLEDGED ∧
    ((create_intake_event svcAck 30 "S1" "ITEM=A;QTY=6" none).2.toOption.map
      Prod.snd) = some 15 ∧
    svcC4.db.signals = svcAck.db.signals ∧
    (latestRowFor svcC4.db.signals 0).map (fun r => r.status)
      = some .ACKNOWLEDGED := by
  exact ⟨by decide, by decide, by decide, by decide⟩

/-- C4 amended: an intake that raises on-hand strictly above the reorder
point runs `fulfill_open_signals`, which appends one FULFILLED row for
every signal of the item whose current state is OPEN — and only those;
currently-ACKNOWLEDGED signals are left untouched. Each appended row
carries forward the signal's `signal_id`, `reorder_point`, `reorder_qty`
and the `triggered_at_qty` of the prior current row, with
`trigger_event_id` set to the intake event; afterwards no signal of the
item has current state OPEN. -/
theorem c4_fulfills_only_open (db : DBState) (item : String) (eid : Nat)
    (hclk : ∀ r ∈ db.signals, r.created_ts < db.clock) :
    (fulfill_open_signals db item eid).2.events = db.events ∧
    (fulfill_open_signals db item eid).2.signals
        = db.signals ++ (fulfill_open_signals db item eid).1 ∧
    (fulfill_open_signals db item eid).1.length
        = (openCurrentRows db item).length ∧
    (∀ f ∈ (fulfill_open_signals db item eid).1,
        f.status = .FULFILLED ∧ f.trigger_event_id = eid ∧
        ∃ s ∈ openCurrentRows db item,
          f.signal_id = s.signal_id ∧ f.item_id = s.item_id ∧
          f.triggered_at_qty = s.triggered_at_qty ∧
          f.reorder_point = s.reorder_point ∧ f.reorder_qty = s.reorder_qty) ∧
    (∀ s ∈ openCurrentRows db item,
        ∃ f ∈ (fulfill_open_signals db item eid).1, f.signal_id = s.signal_id) ∧
    has_open_signal (fulfill_open_signals db item eid).2 item = false ∧
    (∀ (st : ServiceState) (now : Int) (station barcode : String)
       (user : Option String) (parsed : ParsedBarcode)
       (scans' : List (String × Int)) (st' : ServiceState)
       (ev : ScanEvent) (oh : Int),
       check_debounce st now barcode = .ok scans' →
       parse_barcode barcode = .ok parsed →
       create_intake_event st now station barcode user = (st', .ok (ev, oh)) →
       st.settings.reorder_point < oh →
       st'.db = (fulfill_open_signals
           (create_event st.db .INTAKE station barcode parsed.item_id
             parsed.qty user).2
           parsed.item_id ev.event_id).2) := by
  refine ⟨?_, ?_, ?_, ?_, ?_, has_open_after_fulfill db item eid hclk, ?_⟩
  · rw [fulfill_open_signals_eq]
  · rw [fulfill_open_signals_eq]
  · rw [fulfill_open_signals_eq]
    exact fulfilledRows_length ..
  · intro f hf
    rw [fulfill_open_signals_eq] at hf
    obtain ⟨h1, h2, -, s, hs, h4⟩ := mem_fulfilledRows eid _ _ _ f hf
    exact ⟨h1, h2, s, hs, h4⟩
  · intro s hs
    rw [fulfill_open_signals_eq]
    exact fulfilledRows_covers eid _ _ _ s hs
  · intro st now station barcode user parsed scans' st' ev oh hcd hparse hrun hgt
    unfold create_intake_event at hrun
    rw [hcd, hparse] at hrun
    simp only at hrun
    by_cases hgt' : st.settings.reorder_point < get_on_hand_qty
        (create_event st.db .INTAKE station barcode parsed.item_id parsed.qty user).2
        parsed.item_id
    · rw [if_pos hgt'] at hrun
      obtain ⟨h1, h2⟩ := Prod.mk.injEq .. ▸ hrun
      cases h1
      cases h2
      rfl
    · rw [if_neg hgt'] at hrun
      obtain ⟨h1, h2⟩ := Prod.mk.injEq .. ▸ hrun
      cases h2
      exact absurd hgt hgt'

/-- Witness for C4's amended theorem at `dbWitness` (one current-OPEN
signal for `A`) with fulfilling event 5. -/
theorem c4_fulfills_only_open_witness :
    (∀ r ∈ dbWitness.signals, r.created_ts < dbWitness.clock) ∧
    ((fulfill_open_signals dbWitness "A" 5).2.events = dbWitness.events ∧
     (fulfill_open_signals dbWitness "A" 5).2.signals
        = dbWitness.signals ++ (fulfill_open_signals dbWitness "A" 5).1 ∧
     (fulfill_open_signals dbWitness "A" 5).1.length
        = (openCurrentRows dbWitness "A").length ∧
     (∀ f ∈ (fulfill_open_signals dbWitness "A" 5).1,
        f.status = .FULFILLED ∧ f.trigger_event_id = 5 ∧
        ∃ s ∈ openCurrentRows dbWitness "A",
          f.signal_id = s.signal_id ∧ f.item_id = s.item_id ∧
          f.triggered_at_qty = s.triggered_at_qty ∧
          f.reorder_point = s.reorder_point ∧ f.reorder_qty = s.reorder_qty) ∧
     (∀ s ∈ openCurrentRows dbWitness "A",
        ∃ f ∈ (fulfill_open_signals dbWitness "A" 5).1,
          f.signal_id = s.signal_id) ∧
     has_open_signal (fulfill_open_signals dbWitness "A" 5).2 "A" = false ∧
     (∀ (st : ServiceState) (now : Int) (station barcode : String)
        (user : Option String) (parsed : ParsedBarcode)
        (scans' : List (String × Int)) (st' : ServiceState)
        (ev : ScanEvent) (oh : Int),
        check_debounce st now barcode = .ok scans' →
        parse_barcode barcode = .ok parsed →
        create_intake_event st now station barcode user = (st', .ok (ev, oh)) →
        st.settings.reorder_point < oh →
        st'.db = (fulfill_open_signals
            (create_event st.db .INTAKE station barcode parsed.item_id
              parsed.qty user).2
            parsed.item_id ev.event_id).2)) :=
  ⟨by decide, c4_fulfills_only_open dbWitness "A" 5 (by decide)⟩

/-! ## Signal listing lemmas -/

theorem mem_insertByTsDesc (r x : SignalRow) (l : List SignalRow) :
    x ∈ insertByTsDesc r l ↔ x = r ∨ x ∈ l := by
  induction l with
  | nil => simp [insertByTsDesc]
  | cons a l ih =>
    unfold insertByTsDesc
    by_cases h : a.created_ts ≤ r.created_ts
    · rw [if_pos h]
      simp
    · rw [if_neg h]
      rw [List.mem_cons, ih, List.mem_cons]
      tauto

theorem mem_sortByTsDesc (x : SignalRow) (l : List SignalRow) :
    x ∈ sortByTsDesc l ↔ x ∈ l := by
  induction l with
  | nil => simp [sortByTsDesc]
  | cons a l ih =>
    show x ∈ insertByTsDesc a (sortByTsDesc l) ↔ _
    rw [mem_insertByTsDesc, ih, List.mem_cons]

theorem length_insertByTsDesc (r : SignalRow) (l : List SignalRow) :
    (insertByTsDesc r l).length = l.length + 1 := by
  induction l with
  | nil => rfl
  | cons a l ih =>
    unfold insertByTsDesc
    by_cases h : a.created_ts ≤ r.created_ts
    · rw [if_pos h]
      rfl
    · rw [if_neg h]
      simp [ih]

theorem length_sortByTsDesc (l : List SignalRow) :
    (sortByTsDesc l).length = l.length := by
  induction l with
  | nil => rfl
  | cons a l ih =>
    show (insertByTsDesc a (sortByTsDesc l)).length = _
    rw [length_insertByTsDesc, ih]
    rfl

/-- C7: every record returned by `get_signals` is the view of the
physical row that is maximal by `created_ts` among the rows of its
`signal_id` (its current row), respects the optional status filter, and
carries the live on-hand quantity of its item computed from the event
store at read time; conversely, when the limit is not the binding
constraint, the current row of every logical signal passing the filter
is returned. -/
theorem c7_get_signals_latest_and_live (db : DBState)
    (status : Option SignalStatus) (limit : Nat) :
    (∀ v ∈ get_signals db status limit,
       ∃ r, latestRowFor db.signals r.signal_id = some r ∧
         v = viewOf db.events r ∧
         v.current_qty = liveOnHand db.events r.item_id ∧
         (∀ x ∈ db.signals, x.signal_id = r.signal_id →
            x.created_ts ≤ r.created_ts) ∧
         (∀ st', status = some st' → r.status = st')) ∧
    (∀ sid r, latestRowFor db.signals sid = some r →
       (currentRows db.signals).length ≤ limit →
       (status = none ∨ status = some r.status) →
       viewOf db.events r ∈ get_signals db status limit) := by
  constructor
  · intro v hv
    unfold get_signals at hv
    obtain ⟨r, hrmem, hrv⟩ := List.mem_map.mp hv
    have hrsort := List.take_subset _ _ hrmem
    have hrfil : r ∈ (match status with
        | none => currentRows db.signals
        | some st => (currentRows db.signals).filter (fun x => x.status = st)) :=
      (mem_sortByTsDesc ..).mp hrsort
    have hrcur : r ∈ currentRows db.signals := by
      cases status with
      | none => exact hrfil
      | some st => exact List.mem_of_mem_filter hrfil
    obtain ⟨sid, hlat⟩ := (mem_currentRows_iff ..).mp hrcur
    obtain ⟨-, hsid, hmax⟩ := latestRowFor_spec _ _ _ hlat
    refine ⟨r, hsid ▸ hlat, hrv.symm, by rw [← hrv]; rfl, ?_, ?_⟩
    · intro x hx hxsid
      have := hmax x hx (by rw [hxsid, hsid])
      unfold lexLe at this
      omega
    · intro st' hst'
      subst hst'
      simpa using List.of_mem_filter hrfil
  · intro sid r hlat hlim hstat
    unfold get_signals
    simp only
    have hrcur : r ∈ currentRows db.signals := (mem_currentRows_iff ..).mpr ⟨sid, hlat⟩
    have hrfil : r ∈ (match status with
        | none => currentRows db.signals
        | some st => (currentRows db.signals).filter (fun x => x.status = st)) := by
      rcases hstat with h | h <;> subst h
      · exact hrcur
      · exact List.mem_filter.mpr ⟨hrcur, by simp⟩
    have hlen : (match status with
        | none => currentRows db.signals
        | some st => (currentRows db.signals).filter (fun x => x.status = st)).length
          ≤ limit := by
      cases status with
      | none => exact hlim
      | some st => exact le_trans (List.length_filter_le ..) hlim
    rw [List.take_of_length_le (by rw [length_sortByTsDesc]; exact hlen)]
    exact List.mem_map_of_mem _ ((mem_sortByTsDesc ..).mpr hrfil)

/-- Witness for C7 at `dbC3` (one logical signal, current row FULFILLED,
live on-hand 15): its view is returned and is the view of the maximal
row. -/
theorem c7_get_signals_latest_and_live_witness :
    (∃ r, latestRowFor dbC3.signals r.signal_id = some r ∧
       vC7 = viewOf dbC3.events r ∧
       vC7.current_qty = liveOnHand dbC3.events r.item_id ∧
       (∀ x ∈ dbC3.signals, x.signal_id = r.signal_id →
          x.created_ts ≤ r.created_ts) ∧
       (∀ st', (none : Option SignalStatus) = some st' → r.status = st')) ∧
    viewOf dbC3.events rowC7 ∈ get_signals dbC3 none 50 :=
  ⟨(c7_get_signals_latest_and_live dbC3 none 50).1 vC7 (by decide),
   (c7_get_signals_latest_and_live dbC3 none 50).2 0 rowC7 (by decide) (by decide)
     (Or.inl rfl)⟩

/-! ## Barcode round-trip lemmas -/

theorem digitChar_isDigit (k : Nat) : (digitChar k).isDigit = true := by
  unfold digitChar
  split <;> decide

theorem digitChar_not_semi (k : Nat) : digitChar k ≠ ';' := by
  unfold digitChar
  split <;> decide

theorem digitChar_not_ws (k : Nat) : (digitChar k).isWhitespace = false := by
  unfold digitChar
  split <;> decide

theorem digitChar_toNat (k : Nat) (h : k < 10) : (digitChar k).toNat - 48 = k := by
  interval_cases k <;> decide

theorem isDigit_not_ws (c : Char) (h : c.isDigit = true) :
    c.isWhitespace = false := by
  unfold Char.isWhitespace
  have h32 : ¬ c = ' ' := fun he => by subst he; exact absurd h (by decide)
  have h9 : ¬ c = '\t' := fun he => by subst he; exact absurd h (by decide)
  have h13 : ¬ c = '\r' := fun he => by subst he; exact absurd h (by decide)
  have h10 : ¬ c = '\n' := fun he => by subst he; exact absurd h (by decide)
  simp [h32, h9, h13, h10]

theorem natDigits_ne_nil (n : Nat) : natDigits n ≠ [] := by
  rw [natDigits]
  split
  · simp
  · simp

theorem natDigits_all_digit (n : Nat) : ∀ c ∈ natDigits n, c.isDigit = true := by
  induction n using Nat.strong_induction_on with
  | _ n ih =>
    rw [natDigits]
    split
    · intro c hc
      rcases List.mem_singleton.mp hc with rfl
      exact digitChar_isDigit n
    · intro c hc
      rcases List.mem_append.mp hc with h | h
      · exact ih (n / 10) (Nat.div_lt_self (by omega) (by decide)) c h
      · rcases List.mem_singleton.mp h with rfl
        exact digitChar_isDigit _

theorem digitsVal_append_one (l : List Char) (c : Char) :
    digitsVal (l ++ [c]) = 10 * digitsVal l + (c.toNat - 48) := by
  unfold digitsVal
  rw [List.foldl_append]
  rfl

theorem digitsVal_natDigits (n : Nat) : digitsVal (natDigits n) = n := by
  induction n using Nat.strong_induction_on with
  | _ n ih =>
    rw [natDigits]
    split
    · rename_i h
      show 10 * 0 + ((digitChar n).toNat - 48) = n
      rw [digitChar_toNat n h]
      omega
    · rename_i h
      rw [digitsVal_append_one,
          ih (n / 10) (Nat.div_lt_self (by omega) (by decide)),
          digitChar_toNat _ (Nat.mod_lt _ (by decide))]
      omega

theorem dropLit_append (lit rest : List Char) :
    dropLit lit (lit ++ rest) = some rest := by
  induction lit with
  | nil => rfl
  | cons c cs ih => simp [dropLit, ih]

theorem splitAtSemi_no_semi (xs ys : List Char) (h : ∀ c ∈ xs, c ≠ ';') :
    splitAtSemi (xs ++ ';' :: ys) = some (xs, ys) := by
  induction xs with
  | nil => simp [splitAtSemi]
  | cons x xs ih =>
    have hx : ¬ x = ';' := h x (List.mem_cons_self ..)
    rw [List.cons_append]
    unfold splitAtSemi
    rw [if_neg hx, ih (fun c hc => h c (List.mem_cons_of_mem _ hc))]

theorem stripChars_no_ws_ends (c d : Char) (xs : List Char)
    (hc : c.isWhitespace = false) (hd : d.isWhitespace = false) :
    stripChars (c :: (xs ++ [d])) = c :: (xs ++ [d]) := by
  unfold stripChars
  rw [List.dropWhile_cons, hc]
  simp only [Bool.false_eq_true, if_false]
  rw [show c :: (xs ++ [d]) = (c :: xs) ++ [d] from rfl,
      List.reverse_append]
  simp only [List.reverse_cons, List.reverse_nil, List.nil_append,
    List.singleton_append]
  rw [List.dropWhile_cons, hd]
  simp

theorem parse_synthetic (it : BulkItem) (hv : validItem it) :
    parse_barcode (syntheticBarcode it) = .ok ⟨it.item_id, it.qty⟩ := by
  obtain ⟨h1, h2, h3⟩ := hv
  obtain ⟨ds, d, hds⟩ : ∃ ds d, natDigits it.qty = ds ++ [d] := by
    rcases List.eq_nil_or_concat (natDigits it.qty) with h | ⟨L, b, h⟩
    · exact absurd h (natDigits_ne_nil _)
    · exact ⟨L, b, by rw [h, List.concat_eq_append]⟩
  have e1 : "ITEM=".data = 'I' :: 'T' :: 'E' :: 'M' :: '=' :: [] := rfl
  have e2 : ";QTY=".data = ';' :: 'Q' :: 'T' :: 'Y' :: '=' :: [] := rfl
  have e3 : "QTY=".data = 'Q' :: 'T' :: 'Y' :: '=' :: [] := rfl
  have hdw : d.isWhitespace = false :=
    isDigit_not_ws d (natDigits_all_digit it.qty d
      (hds ▸ List.mem_append_right ds (List.mem_singleton.mpr rfl)))
  have hshape : (syntheticBarcode it).data
      = 'I' :: ((('T' :: 'E' :: 'M' :: '=' :: []) ++ it.item_id.data ++
          (';' :: 'Q' :: 'T' :: 'Y' :: '=' :: ds)) ++ [d]) := by
    unfold syntheticBarcode
    rw [String.data_append, String.data_append, String.data_append]
    show "ITEM=".data ++ it.item_id.data ++ ";QTY=".data ++ natDigits it.qty = _
    rw [e1, e2, hds]
    simp [List.append_assoc]
  have hstrip : stripChars (syntheticBarcode it).data
      = "ITEM=".data ++ (it.item_id.data ++ (';' :: ("QTY=".data ++ natDigits it.qty))) := by
    rw [hshape, stripChars_no_ws_ends 'I' d _ (by decide) hdw, e1, e3, hds]
    simp [List.append_assoc]
  have hne : ¬ it.item_id.data.isEmpty = true := by
    intro hie
    apply h1
    have hnil : it.item_id.data = [] := by
      cases hl : it.item_id.data with
      | nil => rfl
      | cons a l => rw [hl] at hie; cases hie
    exact String.ext (by rw [hnil])
  have hdig : ¬ ((natDigits it.qty).isEmpty = true ∨
      ¬ (natDigits it.qty).all Char.isDigit = true) := by
    intro hcon
    rcases hcon with hie | hall
    · rcases hl : natDigits it.qty with _ | ⟨a, l⟩
      · exact natDigits_ne_nil _ hl
      · rw [hl] at hie; cases hie
    · exact hall (List.all_eq_true.mpr (fun c hc => by
        simpa using natDigits_all_digit it.qty c hc))
  unfold parse_barcode
  simp only
  rw [hstrip, dropLit_append]
  simp only
  rw [splitAtSemi_no_semi _ _ h2]
  simp only
  rw [if_neg hne, dropLit_append]
  simp only
  rw [if_neg hdig]
  rw [digitsVal_natDigits]
  rw [if_neg (by omega)]

/-! ## Bulk-intake lemmas -/

theorem lookup_isSome_iff (l : List (String × Int)) (k : String) :
    (l.lookup k).isSome = true ↔ k ∈ l.map Prod.fst := by
  induction l with
  | nil => simp [List.lookup]
  | cons p l ih =>
    rcases p with ⟨a, v⟩
    cases hba : k == a with
    | true =>
      have hk : k = a := by simpa using hba
      simp [List.lookup, hba, hk]
    | false =>
      have hk : ¬ k = a := by simpa using hba
      simp [List.lookup, hba, hk, ih]

theorem lookup_mem (l : List (String × Int)) (k : String) (v : Int)
    (h : l.lookup k = some v) : (k, v) ∈ l := by
  induction l with
  | nil => cases h
  | cons p l ih =>
    rcases p with ⟨a, w⟩
    cases hba : k == a with
    | true =>
      have hk : k = a := by simpa using hba
      rw [List.lookup, hba] at h
      cases h
      exact hk ▸ List.mem_cons_self ..
    | false =>
      rw [List.lookup, hba] at h
      exact List.mem_cons_of_mem _ (ih h)

theorem keys_ne_of_lookup_none (l : List (String × Int)) (k : String)
    (h : l.lookup k = none) : ∀ p ∈ l, ¬ p.1 = k := by
  intro p hp hpk
  have : k ∈ l.map Prod.fst := hpk ▸ List.mem_map_of_mem _ hp
  have := (lookup_isSome_iff l k).mpr this
  rw [h] at this
  cases this

theorem check_debounce_fresh (st : ServiceState) (now : Int) (barcode : String)
    (hlk : st.lastScans.lookup barcode = none)
    (hkeep : ∀ p ∈ st.lastScans, now - 60 < p.2) :
    check_debounce st now barcode = .ok ((barcode, now) :: st.lastScans) := by
  unfold check_debounce
  rw [hlk]
  simp only
  congr 1
  unfold setScan
  have h1 : st.lastScans.filter (fun p => ¬ p.1 = barcode) = st.lastScans :=
    List.filter_eq_self.mpr
      (fun p hp => by simpa using keys_ne_of_lookup_none _ _ hlk p hp)
  rw [h1, List.filter_cons_of_pos (by simp),
      List.filter_eq_self.mpr (fun p hp => by simpa using hkeep p hp)]

theorem create_intake_event_admitted (st : ServiceState) (now : Int)
    (station barcode : String) (user : Option String) (parsed : ParsedBarcode)
    (scans' : List (String × Int))
    (hcd : check_debounce st now barcode = .ok scans')
    (hparse : parse_barcode barcode = .ok parsed) :
    ∃ db', create_intake_event st now station barcode user
      = ({ st with lastScans := scans', db := db' },
         .ok ((create_event st.db .INTAKE station barcode parsed.item_id
                parsed.qty user).1,
              get_on_hand_qty (create_event st.db .INTAKE station barcode
                parsed.item_id parsed.qty user).2 parsed.item_id)) := by
  unfold create_intake_event
  rw [hcd, hparse]
  simp only
  exact ⟨_, rfl⟩

theorem bulkGo_cons_rejected (station : String) (user : Option String)
    (st : ServiceState) (it : BulkItem) (t rem : Int)
    (rest : List (BulkItem × Int))
    (hrej : create_intake_event st t station (syntheticBarcode it) user
      = (st, .error (.duplicateScan rem))) :
    bulkGo station user st ((it, t) :: rest) = bulkGo station user st rest := by
  simp only [bulkGo]
  rw [hrej]

theorem bulkGo_cons_admitted (station : String) (user : Option String)
    (st st1 : ServiceState) (it : BulkItem) (t : Int) (ev : ScanEvent)
    (oh : Int) (rest : List (BulkItem × Int))
    (hrun : create_intake_event st t station (syntheticBarcode it) user
      = (st1, .ok (ev, oh))) :
    bulkGo station user st ((it, t) :: rest)
      = match bulkGo station user st1 rest with
        | .ok (evs, st') => .ok (ev :: evs, st')
        | .error m => .error m := by
  simp only [bulkGo]
  rw [hrun]

theorem bulkGo_spec (station : String) (user : Option String) (t0 : Int) :
    ∀ (pairs : List (BulkItem × Int)) (st : ServiceState),
      st.settings.debounce_seconds = 3 →
      (∀ p ∈ st.lastScans, t0 ≤ p.2 ∧ p.2 < t0 + 3) →
      (∀ p ∈ pairs, validItem p.1) →
      (∀ p ∈ pairs, t0 ≤ p.2 ∧ p.2 < t0 + 3) →
      ∃ evs st',
        bulkGo station user st pairs = .ok (evs, st') ∧
        evs.map (fun e => (e.item_id, e.qty))
          = (admittedLineItems (st.lastScans.map Prod.fst) pairs).map
              (fun x => (x.item_id, x.qty)) := by
  intro pairs
  induction pairs with
  | nil =>
    intro st hset hscans hvalid htime
    exact ⟨[], st, rfl, by simp [admittedLineItems]⟩
  | cons p rest ih =>
    rcases p with ⟨it, t⟩
    intro st hset hscans hvalid htime
    have hvit : validItem it := hvalid (it, t) (List.mem_cons_self ..)
    have htit := htime (it, t) (List.mem_cons_self ..)
    by_cases hseen : syntheticBarcode it ∈ st.lastScans.map Prod.fst
    · obtain ⟨tl, hlk⟩ :=
        Option.isSome_iff_exists.mp ((lookup_isSome_iff ..).mpr hseen)
      have htl := hscans (syntheticBarcode it, tl) (lookup_mem _ _ _ hlk)
      have hrej := intake_rejected_within_window st t tl station
        (syntheticBarcode it) user hlk (by rw [hset]; simp only at htl htit; omega)
      obtain ⟨evs, st', heq, hmap⟩ := ih st hset hscans
        (fun q hq => hvalid q (List.mem_cons_of_mem _ hq))
        (fun q hq => htime q (List.mem_cons_of_mem _ hq))
      refine ⟨evs, st', ?_, ?_⟩
      · rw [bulkGo_cons_rejected station user st it t _ rest hrej]
        exact heq
      · rw [hmap]
        show _ = (admittedLineItems _ ((it, t) :: rest)).map _
        rw [admittedLineItems]
        simp only [if_pos hseen]
    · have hlk : st.lastScans.lookup (syntheticBarcode it) = none := by
        cases hl : st.lastScans.lookup (syntheticBarcode it) with
        | none => rfl
        | some v =>
          exact absurd ((lookup_isSome_iff ..).mp (by rw [hl]; rfl)) hseen
      have hkeep : ∀ p ∈ st.lastScans, t - 60 < p.2 := by
        intro p hp
        have := hscans p hp
        simp only at htit
        omega
      have hcd := check_debounce_fresh st t (syntheticBarcode it) hlk hkeep
      have hparse := parse_synthetic it hvit
      obtain ⟨db', hrun⟩ := create_intake_event_admitted st t station
        (syntheticBarcode it) user ⟨it.item_id, it.qty⟩ _ hcd hparse
      obtain ⟨evs, st', heq, hmap⟩ := ih
        { st with lastScans := (syntheticBarcode it, t) :: st.lastScans, db := db' }
        hset
        (by
          intro p hp
          rcases List.mem_cons.mp hp with rfl | hp
          · simpa using htit
          · exact hscans p hp)
        (fun q hq => hvalid q (List.mem_cons_of_mem _ hq))
        (fun q hq => htime q (List.mem_cons_of_mem _ hq))
      refine ⟨(create_event st.db .INTAKE station (syntheticBarcode it)
          it.item_id it.qty user).1 :: evs, st', ?_, ?_⟩
      · rw [bulkGo_cons_admitted station user st _ it t _ _ rest hrun, heq]
      · simp only [List.map_cons]
        rw [hmap]
        show _ = (admittedLineItems _ ((it, t) :: rest)).map _
        rw [admittedLineItems]
        simp only [if_neg hseen, List.map_cons]
        rfl

/-- C10: each bulk line item is scanned under the synthetic barcode
`ITEM=<item_id>;QTY=<qty>` (so two line items with equal `item_id` and
`qty` share a barcode); within one debounce window the loop admits
exactly the first occurrence of each synthetic barcode, skipping later
duplicates without error, and the response's `total_items`/`total_qty`
count only the admitted line items. -/
theorem c10_bulk_intake_dedup (st : ServiceState) (station : String)
    (user : Option String) (pairs : List (BulkItem × Int)) (t0 : Int)
    (hscans : st.lastScans = [])
    (hset : st.settings.debounce_seconds = 3)
    (hvalid : ∀ p ∈ pairs, validItem p.1)
    (htime : ∀ p ∈ pairs, t0 ≤ p.2 ∧ p.2 < t0 + 3) :
    (∀ it₁ it₂ : BulkItem, it₁.item_id = it₂.item_id → it₁.qty = it₂.qty →
       syntheticBarcode it₁ = syntheticBarcode it₂) ∧
    ∃ resp st', create_bulk_intake st station user pairs = .ok (resp, st') ∧
      resp.events.map (fun e => (e.item_id, e.qty))
        = (admittedLineItems [] pairs).map (fun x => (x.item_id, x.qty)) ∧
      resp.total_items = (admittedLineItems [] pairs).length ∧
      resp.total_qty = ((admittedLineItems [] pairs).map (fun x => x.qty)).sum := by
  constructor
  · intro a b h1 h2
    unfold syntheticBarcode
    rw [h1, h2]
  · obtain ⟨evs, st', heq, hmap⟩ := bulkGo_spec station user t0 pairs st hset
      (by rw [hscans]; simp) hvalid htime
    rw [hscans] at hmap
    simp only [List.map_nil] at hmap
    refine ⟨{ events := evs, total_items := evs.length,
              total_qty := (evs.map (fun e => e.qty)).sum }, st', ?_, hmap, ?_, ?_⟩
    · unfold create_bulk_intake
      rw [heq]
    · show evs.length = _
      have := congrArg List.length hmap
      simpa using this
    · show (evs.map (fun e => e.qty)).sum = _
      have h2 : evs.map (fun e => e.qty)
          = (admittedLineItems [] pairs).map (fun x => x.qty) := by
        have := congrArg (List.map Prod.snd) hmap
        simpa [List.map_map, Function.comp] using this
      rw [h2]

/-- Witness for C10: a fresh service processing
`[(A,2) at t=0, (A,2) at t=1, (B,1) at t=2]` admits the first `(A,2)`
and `(B,1)` and skips the duplicate. -/
theorem c10_bulk_intake_dedup_witness :
    (∀ it₁ it₂ : BulkItem, it₁.item_id = it₂.item_id → it₁.qty = it₂.qty →
       syntheticBarcode it₁ = syntheticBarcode it₂) ∧
    ∃ resp st', create_bulk_intake svc0 "PACKING_SLIP" none pairsC10
        = .ok (resp, st') ∧
      resp.events.map (fun e => (e.item_id, e.qty))
        = (admittedLineItems [] pairsC10).map (fun x => (x.item_id, x.qty)) ∧
      resp.total_items = (admittedLineItems [] pairsC10).length ∧
      resp.total_qty = ((admittedLineItems [] pairsC10).map (fun x => x.qty)).sum :=
  c10_bulk_intake_dedup svc0 "PACKING_SLIP" none pairsC10 0 rfl rfl
    (by simp only [validItem]; decide) (by decide)

end LineSync
